import Mathlib

/-!
Verification of the RSI divergence signal engine shared by
rsi_divergence_bot.py, multi_rsi_divergence_bot.py and
nifty50_rsi_divergence_bot.py.

Numbers are embedded as rationals.  Values that may be the float NaN in
the original code (the rsi column and the four rolling-extremum arrays,
which are initialised to NaN and only filled once RSI is defined) are
embedded as Option values, with none playing the role of NaN; every
comparison against such a value mirrors the Python semantics, where any
comparison with NaN is False.  Bar fields (high, low, close, time) are
plain numbers: the spec requires the caller to reject malformed bars.
-/

/-- Pine input len = 14 (RSI_LENGTH in every script). -/
def RSI_LENGTH : ℕ := 14

/-- Pine input calcBars = 7 (LOOKBACK in every script). -/
def LOOKBACK : ℕ := 7

/-- RSI filter on BUY confirmation (rsi > 40). -/
def RSI_BUY_MIN : ℚ := 40

/-- RSI filter on SELL confirmation (rsi < 60). -/
def RSI_SELL_MAX : ℚ := 60

/-- The dict returned by TriggerTracker.update:
{divbear, divbull, buy, sell}. -/
structure Signals where
  divbear : Bool
  divbull : Bool
  buy : Bool
  sell : Bool
deriving DecidableEq, Repr

def noSignals : Signals := ⟨false, false, false, false⟩

/-- The fields of the per-bar row consumed by TriggerTracker.update:
high, low, rsi, divbear_close, divbull_close.  rsi is an Option because
the rsi column of the dataframe can be NaN. -/
structure UpdateRow where
  high : ℚ
  low : ℚ
  rsi : Option ℚ
  divbear_close : Bool
  divbull_close : Bool
deriving DecidableEq, Repr

/-- Python comparison rsi_val > x where rsi_val may be NaN (none):
comparisons with NaN are False. -/
def optGt (v : Option ℚ) (x : ℚ) : Bool :=
  match v with
  | some r => decide (x < r)
  | none => false

/-- Python comparison rsi_val < x where rsi_val may be NaN (none). -/
def optLt (v : Option ℚ) (x : ℚ) : Bool :=
  match v with
  | some r => decide (r < x)
  | none => false

/-- Persistent state of class TriggerTracker: bull_trigger and
bear_trigger, each an optional price (None at construction). -/
structure TriggerTracker where
  bull_trigger : Option ℚ
  bear_trigger : Option ℚ
deriving DecidableEq, Repr

/-- Step 1 of TriggerTracker.update: new divergence sets the trigger and
resets the opposite one; bearish is checked first and the bullish branch
is an elif.  Returns the post-step-1 state and the signals dict as
populated by step 1 (buy and sell still False). -/
def TriggerTracker.step1 (st : TriggerTracker) (row : UpdateRow) :
    TriggerTracker × Signals :=
  if row.divbear_close then
    (⟨none, some row.low⟩, ⟨true, false, false, false⟩)
  else if row.divbull_close then
    (⟨some row.high, none⟩, ⟨false, true, false, false⟩)
  else
    (st, ⟨false, false, false, false⟩)

/-- TriggerTracker.update: step 1 (arm trigger), step 2 (breakout test on
the post-step-1 triggers), step 3 (RSI filter), step 4 (one-shot reset of
any trigger that broke). -/
def TriggerTracker.update (st : TriggerTracker) (row : UpdateRow) :
    TriggerTracker × Signals :=
  let s1 := TriggerTracker.step1 st row
  let st1 := s1.1
  let bull_broke : Bool :=
    match st1.bull_trigger with
    | some t => decide (t ≤ row.high)
    | none => false
  let bear_broke : Bool :=
    match st1.bear_trigger with
    | some t => decide (row.low ≤ t)
    | none => false
  let buy := bull_broke && optGt row.rsi RSI_BUY_MIN
  let sell := bear_broke && optLt row.rsi RSI_SELL_MAX
  (⟨if bull_broke then none else st1.bull_trigger,
    if bear_broke then none else st1.bear_trigger⟩,
   ⟨s1.2.divbear, s1.2.divbull, buy, sell⟩)

/-- Folding TriggerTracker.update over a sequence of rows starting from
the freshly constructed tracker (both triggers None). -/
def runTracker (rows : List UpdateRow) : TriggerTracker :=
  rows.foldl (fun s r => (TriggerTracker.update s r).1) ⟨none, none⟩

/-- One row of the dataframe as consumed by compute_divergences: the
close and the (possibly NaN) rsi column. -/
structure Row where
  close : ℚ
  rsi : Option ℚ
deriving DecidableEq, Repr

/-- df["rsi"].iloc[i] (none when out of range, mirroring NaN). -/
def rsiAt (rows : List Row) (i : ℕ) : Option ℚ :=
  (rows[i]?).bind Row.rsi

/-- df["close"].iloc[i] (none when out of range). -/
def closeAt (rows : List Row) (i : ℕ) : Option ℚ :=
  (rows[i]?).map Row.close

/-- df["rsi"].iloc[max(0, i-lookback+1) : i+1].dropna() — the defined
RSI values of the lookback window ending at bar i. -/
def windowRsi (lookback : ℕ) (rows : List Row) (i : ℕ) : List ℚ :=
  (List.range' (i + 1 - lookback) (i + 1 - (i + 1 - lookback))).filterMap
    (fun j => rsiAt rows j)

/-- pandas Series.max over a list of defined values (none on empty). -/
def listMax : List ℚ → Option ℚ
  | [] => none
  | x :: xs =>
    match listMax xs with
    | none => some x
    | some m => some (max x m)

/-- pandas Series.min over a list of defined values (none on empty). -/
def listMin : List ℚ → Option ℚ
  | [] => none
  | x :: xs =>
    match listMin xs with
    | none => some x
    | some m => some (min x m)

/-- hb_is_zero of bar i: the current RSI equals the window maximum
(exact equality on the raw value). -/
def isNewHigh (lookback : ℕ) (rows : List Row) (i : ℕ) : Bool :=
  match rsiAt rows i with
  | none => false
  | some r => decide (listMax (windowRsi lookback rows i) = some r)

/-- lb_is_zero of bar i: the current RSI equals the window minimum. -/
def isNewLow (lookback : ℕ) (rows : List Row) (i : ℕ) : Bool :=
  match rsiAt rows i with
  | none => false
  | some r => decide (listMin (windowRsi lookback rows i) = some r)

/-- The four tracked arrays at one bar: max_rsi_arr[i], max_close_arr[i],
min_rsi_arr[i], min_close_arr[i]; none is the NaN initialisation. -/
structure TrackState where
  max_rsi : Option ℚ
  max_close : Option ℚ
  min_rsi : Option ℚ
  min_close : Option ℚ
deriving DecidableEq, Repr

def emptyTrack : TrackState := ⟨none, none, none, none⟩

/-- Python: if v > stored: stored = v, where stored may be NaN (none), in
which case the comparison is False and the NaN is kept. -/
def clampUp (stored : Option ℚ) (v : ℚ) : Option ℚ :=
  match stored with
  | some x => if x < v then some v else some x
  | none => none

/-- Python: if v < stored: stored = v, with NaN (none) kept unchanged. -/
def clampDown (stored : Option ℚ) (v : ℚ) : Option ℚ :=
  match stored with
  | some x => if v < x then some v else some x
  | none => none

/-- The body of the compute_divergences loop for one index i, given the
previous bar state (the arrays at i-1; emptyTrack when i = 0, which takes
the same branch as the explicit i == 0 test in the code because the NaN
check on the previous entry is then true).  A NaN rsi leaves all four
arrays at their NaN initialisation (the continue branch). -/
def trackStep (lookback : ℕ) (rows : List Row) (i : ℕ) (prev : TrackState) :
    TrackState :=
  match rows[i]? with
  | none => emptyTrack
  | some row =>
    match row.rsi with
    | none => emptyTrack
    | some r =>
      let c := row.close
      let w := windowRsi lookback rows i
      if w.isEmpty then ⟨some r, some c, some r, some c⟩
      else
        let hb0 := decide (listMax w = some r)
        let lb0 := decide (listMin w = some r)
        let maxPair : Option ℚ × Option ℚ :=
          if hb0 then (some r, some c)
          else
            match prev.max_rsi with
            | some pm => (some pm, prev.max_close)
            | none => (some r, some c)
        let minPair : Option ℚ × Option ℚ :=
          if lb0 then (some r, some c)
          else
            match prev.min_rsi with
            | some pm => (some pm, prev.min_close)
            | none => (some r, some c)
        ⟨clampUp maxPair.1 r, clampUp maxPair.2 c,
         clampDown minPair.1 r, clampDown minPair.2 c⟩

/-- The tracked arrays at bar i, obtained by running the loop bodies of
compute_divergences for indices 0..i. -/
def trackAt (lookback : ℕ) (rows : List Row) : ℕ → TrackState
  | 0 => trackStep lookback rows 0 emptyTrack
  | i + 1 => trackStep lookback rows (i + 1) (trackAt lookback rows i)

/-- The state the loop body at index i reads as the previous entries of
the arrays. -/
def prevTrack (lookback : ℕ) (rows : List Row) : ℕ → TrackState
  | 0 => emptyTrack
  | i + 1 => trackAt lookback rows i

/-- divbear_close at bar i: guarded by a defined rsi, a non-empty window,
i >= 2 and the NaN check on max_close[i-1], max_close[i-2], rsi[i-1] and
max_rsi[i]; then max_close[i-1] > max_close[i-2] and rsi[i-1] < max_rsi[i]
and rsi[i] <= rsi[i-1]. -/
def divbearAt (lookback : ℕ) (rows : List Row) (i : ℕ) : Bool :=
  match rows[i]? with
  | none => false
  | some row =>
    match row.rsi with
    | none => false
    | some r =>
      if (windowRsi lookback rows i).isEmpty then false
      else if i < 2 then false
      else
        match (trackAt lookback rows (i - 1)).max_close,
              (trackAt lookback rows (i - 2)).max_close,
              rsiAt rows (i - 1),
              (trackAt lookback rows i).max_rsi with
        | some mc1, some mc2, some rsi1, some maxr =>
          decide (mc1 > mc2 ∧ rsi1 < maxr ∧ r ≤ rsi1)
        | _, _, _, _ => false

/-- divbull_close at bar i.  In the source the bullish check is nested
inside the NaN guard of the bearish one, so the max-side values must be
defined as well; then min_close[i-1] < min_close[i-2] and
rsi[i-1] > min_rsi[i] and rsi[i] >= rsi[i-1]. -/
def divbullAt (lookback : ℕ) (rows : List Row) (i : ℕ) : Bool :=
  match rows[i]? with
  | none => false
  | some row =>
    match row.rsi with
    | none => false
    | some r =>
      if (windowRsi lookback rows i).isEmpty then false
      else if i < 2 then false
      else
        match (trackAt lookback rows (i - 1)).max_close,
              (trackAt lookback rows (i - 2)).max_close,
              rsiAt rows (i - 1),
              (trackAt lookback rows i).max_rsi with
        | some _, some _, some rsi1, some _ =>
          match (trackAt lookback rows (i - 1)).min_close,
                (trackAt lookback rows (i - 2)).min_close,
                (trackAt lookback rows i).min_rsi with
          | some minc1, some minc2, some mr1 =>
            decide (minc1 < minc2 ∧ rsi1 > mr1 ∧ r ≥ rsi1)
          | _, _, _ => false
        | _, _, _, _ => false

/-- Sample rows matching the end-to-end scenario of the spec. -/
def rows0 : List Row := [⟨100, some 65⟩, ⟨105, some 60⟩, ⟨103, some 58⟩]

/-- RSI = 100 - 100/(1 + avgGain/avgLoss), with RSI = 100 when the
average loss is zero. -/
def rsiFromAvgs (ag al : ℚ) : ℚ :=
  if al = 0 then 100 else 100 - 100 / (1 + ag / al)

/-- Modelled from the spec: add_rsi delegates the RSI computation to the
external library call pandas_ta.rsi, whose code is not part of src/.
Following section 4.1 of the spec: per-bar gain max(close[i]-close[i-1],0)
and loss max(close[i-1]-close[i],0); the average gain and loss are seeded
with the simple mean of the first length gains/losses and thereafter
smoothed by avg = (avg*(length-1) + value)/length; RSI is
100 - 100/(1 + avgGain/avgLoss); the first length entries of the output
are undefined, and the whole output is undefined when fewer than
length+1 closes are available. -/
def wilderRsi (length : ℕ) (closes : List ℚ) : List (Option ℚ) :=
  if length = 0 ∨ closes.length < length + 1 then
    List.replicate closes.length none
  else
    let diffs := (closes.zip closes.tail).map (fun p => p.2 - p.1)
    let gains := diffs.map (fun d => max d 0)
    let losses := diffs.map (fun d => max (-d) 0)
    let seedG := (gains.take length).sum / (length : ℚ)
    let seedL := (losses.take length).sum / (length : ℚ)
    let rest := (gains.drop length).zip (losses.drop length)
    let smooth := rest.scanl
      (fun a p => ((a.1 * ((length : ℚ) - 1) + p.1) / (length : ℚ),
                   (a.2 * ((length : ℚ) - 1) + p.2) / (length : ℚ)))
      (seedG, seedL)
    List.replicate length none ++ smooth.map (fun a => some (rsiFromAvgs a.1 a.2))

/-- The literal closing-price sequence of the RSI determinism property. -/
def c3closes : List ℚ :=
  [44, 44.34, 44.09, 44.15, 43.61, 44.33, 44.83, 45.10, 45.42, 45.84,
   46.08, 45.89, 46.03, 45.61, 46.28]

/-- One OHLCV candle as fetched and fed to the engine. -/
structure Bar where
  time : ℤ
  open_ : ℚ
  high : ℚ
  low : ℚ
  close : ℚ
  volume : ℚ
deriving DecidableEq, Repr

/-- The close/rsi rows obtained from a window of bars by add_rsi: the rsi
column is paired with each close. -/
def mkRows (length : ℕ) (bars : List Bar) : List Row :=
  (bars.zip (wilderRsi length (bars.map Bar.close))).map
    (fun p => ⟨p.1.close, p.2⟩)

/-- The engine state that persists across polling cycles in main: the
trigger tracker and last_bar_time (None at startup). -/
structure EngineState where
  tracker : TriggerTracker
  last_bar_time : Option ℤ
deriving DecidableEq, Repr

/-- The derived row of the newest bar: its high and low together with
the rsi and divergence columns of the processed window at the last
index. -/
def latestRow (bars : List Bar) (latest : Bar) : UpdateRow :=
  ⟨latest.high, latest.low,
   rsiAt (mkRows RSI_LENGTH bars) (bars.length - 1),
   divbearAt LOOKBACK (mkRows RSI_LENGTH bars) (bars.length - 1),
   divbullAt LOOKBACK (mkRows RSI_LENGTH bars) (bars.length - 1)⟩

/-- One cycle of the main loop on a fetched window of closed bars:
skip when fewer than RSI_LENGTH + LOOKBACK + 5 bars are present; compute
rsi and divergences; take the newest bar; skip when its timestamp equals
last_bar_time; otherwise record the timestamp and run
TriggerTracker.update on the newest derived row, returning its signals. -/
def cycle (st : EngineState) (bars : List Bar) : EngineState × Signals :=
  if bars.length < RSI_LENGTH + LOOKBACK + 5 then (st, noSignals)
  else
    match bars.getLast? with
    | none => (st, noSignals)
    | some latest =>
      if st.last_bar_time = some latest.time then (st, noSignals)
      else
        let res := TriggerTracker.update st.tracker (latestRow bars latest)
        (⟨res.1, some latest.time⟩, res.2)

lemma update_none_state (row : UpdateRow) :
    (TriggerTracker.update ⟨none, none⟩ row).1 = ⟨none, none⟩ ∧
    (TriggerTracker.update ⟨none, none⟩ row).2.buy =
      (!row.divbear_close && row.divbull_close && optGt row.rsi RSI_BUY_MIN) ∧
    (TriggerTracker.update ⟨none, none⟩ row).2.sell =
      (row.divbear_close && optLt row.rsi RSI_SELL_MAX) := by
  cases hb : row.divbear_close <;> cases hl : row.divbull_close <;>
    simp [TriggerTracker.update, TriggerTracker.step1, hb, hl]

lemma runTracker_none (rows : List UpdateRow) : runTracker rows = ⟨none, none⟩ := by
  have h : ∀ l : List UpdateRow,
      l.foldl (fun s r => (TriggerTracker.update s r).1) ⟨none, none⟩ =
        (⟨none, none⟩ : TriggerTracker) := by
    intro l
    induction l with
    | nil => rfl
    | cons r rs ih =>
      rw [List.foldl_cons, (update_none_state r).1, ih]
  exact h rows

/-- C1 counterexample: the claim asserts that update returns buy = true
exactly when divbull_close holds and rsi > 40 on the same bar; on a row
carrying both divergence flags the bearish elif wins, the bull trigger is
never armed, and buy stays false although divbull_close holds and
rsi = 50 > 40. -/
theorem c1_counterexample :
    (TriggerTracker.update ⟨none, none⟩ ⟨1, 1, some 50, true, true⟩).2.buy =
        false ∧
    (⟨1, 1, some 50, true, true⟩ : UpdateRow).divbull_close = true ∧
    optGt (⟨1, 1, some 50, true, true⟩ : UpdateRow).rsi RSI_BUY_MIN = true := by
  decide

/-- C1 (amended): starting from a freshly constructed TriggerTracker,
after every update both triggers are unset — a trigger armed in step 1
satisfies its own breakout test on the very bar that armed it and is
cleared in step 4 — and consequently update returns
buy = (no divbear_close and divbull_close and rsi > 40) and
sell = (divbear_close and rsi < 60) on that same bar; the amendment adds
the missing "divbear_close fails" conjunct to the buy equation, which the
bearish-first elif forces. -/
theorem c1_amended :
    (∀ rows : List UpdateRow, runTracker rows = ⟨none, none⟩) ∧
    (∀ row : UpdateRow,
      (TriggerTracker.update ⟨none, none⟩ row).1 = ⟨none, none⟩ ∧
      (TriggerTracker.update ⟨none, none⟩ row).2.buy =
        (!row.divbear_close && row.divbull_close && optGt row.rsi RSI_BUY_MIN) ∧
      (TriggerTracker.update ⟨none, none⟩ row).2.sell =
        (row.divbear_close && optLt row.rsi RSI_SELL_MAX)) :=
  ⟨runTracker_none, update_none_state⟩

/-- C4: one-shot consumption.  A set bullTrigger P is cleared by any bar
with high >= P whatever the divergence flags and the RSI value; a failed
RSI filter alone suppresses BUY; and from a cleared bullTrigger no buy
can fire without a fresh bullish divergence.  Symmetric for bearTrigger
with low <= P. -/
theorem c4_one_shot (st : TriggerTracker) (row : UpdateRow) :
    (∀ P, st.bull_trigger = some P → P ≤ row.high →
      (TriggerTracker.update st row).1.bull_trigger = none) ∧
    (optGt row.rsi RSI_BUY_MIN = false →
      (TriggerTracker.update st row).2.buy = false) ∧
    (st.bull_trigger = none → row.divbull_close = false →
      (TriggerTracker.update st row).2.buy = false) ∧
    (∀ P, st.bear_trigger = some P → row.low ≤ P →
      (TriggerTracker.update st row).1.bear_trigger = none) ∧
    (optLt row.rsi RSI_SELL_MAX = false →
      (TriggerTracker.update st row).2.sell = false) ∧
    (st.bear_trigger = none → row.divbear_close = false →
      (TriggerTracker.update st row).2.sell = false) := by
  refine ⟨?_, ?_, ?_, ?_, ?_, ?_⟩ <;>
    cases hb : row.divbear_close <;> cases hl : row.divbull_close <;>
      simp [TriggerTracker.update, TriggerTracker.step1, hb, hl] <;>
        intros <;> simp_all

/-- C4 witness: a bar with high 6 >= 5 = bullTrigger and rsi 30 <= 40
clears the trigger without firing buy. -/
theorem c4_witness :
    (TriggerTracker.update ⟨some 5, none⟩
        ⟨6, 0, some 30, false, false⟩).1.bull_trigger = none :=
  (c4_one_shot ⟨some 5, none⟩ ⟨6, 0, some 30, false, false⟩).1 5 rfl
    (by norm_num)

/-- C5: trigger mutual exclusion.  In every state reachable from
construction by update calls at most one trigger is set (in fact both are
always unset, because an armed trigger is consumed on its own bar), and
arming is mutually exclusive with bearish precedence: whenever
divbear_close holds — in particular when both flags hold — step 1 sets
bear_trigger to the bar low and clears bull_trigger, and only a bar with
divbear_close false and divbull_close true sets bull_trigger and clears
bear_trigger. -/
theorem c5_mutual_exclusion :
    (∀ rows : List UpdateRow,
      (runTracker rows).bull_trigger = none ∨
        (runTracker rows).bear_trigger = none) ∧
    (∀ (st : TriggerTracker) (row : UpdateRow),
      (row.divbear_close = true →
        (TriggerTracker.step1 st row).1.bear_trigger = some row.low ∧
        (TriggerTracker.step1 st row).1.bull_trigger = none) ∧
      (row.divbear_close = false → row.divbull_close = true →
        (TriggerTracker.step1 st row).1.bull_trigger = some row.high ∧
        (TriggerTracker.step1 st row).1.bear_trigger = none)) := by
  constructor
  · intro rows
    rw [runTracker_none]
    exact Or.inl rfl
  · intro st row
    constructor
    · intro hb
      simp [TriggerTracker.step1, hb]
    · intro hb hl
      simp [TriggerTracker.step1, hb, hl]

/-- C5 witness: on a row carrying both divergence flags, step 1 arms the
bear trigger at the bar low and clears the bull trigger. -/
theorem c5_witness :
    (TriggerTracker.step1 ⟨some 9, none⟩
        ⟨4, 2, some 50, true, true⟩).1.bear_trigger = some 2 ∧
    (TriggerTracker.step1 ⟨some 9, none⟩
        ⟨4, 2, some 50, true, true⟩).1.bull_trigger = none :=
  (c5_mutual_exclusion.2 ⟨some 9, none⟩ ⟨4, 2, some 50, true, true⟩).1 rfl

/-- C6 counterexample: the claim asserts that when both divergence flags
are presented on the same bar the returned record reports both divbear
and divbull as true; the elif in update suppresses the bullish flag, so
the record reports divbull = false. -/
theorem c6_counterexample :
    (TriggerTracker.update ⟨none, none⟩ ⟨2, 1, some 55, true, true⟩).2.divbear =
        true ∧
    (TriggerTracker.update ⟨none, none⟩ ⟨2, 1, some 55, true, true⟩).2.divbull =
        false := by
  decide

/-- C6 (amended): when both divergence flags are presented on the same
bar, the per-bar output record reports only divbear; the bearish
precedence of step 1 applies to the reported flags exactly as it applies
to the trigger state, because the divbull branch is an elif. -/
theorem c6_amended (st : TriggerTracker) (row : UpdateRow)
    (hb : row.divbear_close = true) :
    (TriggerTracker.update st row).2.divbear = true ∧
    (TriggerTracker.update st row).2.divbull = false := by
  simp [TriggerTracker.update, TriggerTracker.step1, hb]

/-- C6 amended witness at a concrete both-flags row. -/
theorem c6_witness :
    (TriggerTracker.update ⟨none, some 7⟩ ⟨3, 1, some 45, true, true⟩).2.divbear =
        true ∧
    (TriggerTracker.update ⟨none, some 7⟩ ⟨3, 1, some 45, true, true⟩).2.divbull =
        false :=
  c6_amended ⟨none, some 7⟩ ⟨3, 1, some 45, true, true⟩ rfl

lemma trackAt_eq_step (lookback : ℕ) (rows : List Row) (i : ℕ) :
    trackAt lookback rows i = trackStep lookback rows i (prevTrack lookback rows i) := by
  cases i <;> rfl

lemma trackAt_rsi_none {rows : List Row} {i : ℕ} (lookback : ℕ)
    (h : rsiAt rows i = none) : trackAt lookback rows i = emptyTrack := by
  rw [trackAt_eq_step]
  unfold trackStep
  cases hg : rows[i]? with
  | none => rfl
  | some row =>
    have hr : row.rsi = none := by
      unfold rsiAt at h
      rw [hg] at h
      simpa using h
    simp [hg, hr]

lemma listMax_le_of_mem : ∀ {l : List ℚ} {x : ℚ}, x ∈ l →
    ∃ m, listMax l = some m ∧ x ≤ m := by
  intro l
  induction l with
  | nil => simp
  | cons y ys ih =>
    intro x hx
    rcases List.mem_cons.mp hx with h | h
    · subst h
      cases hys : listMax ys with
      | none => exact ⟨x, by simp [listMax, hys], le_refl x⟩
      | some m => exact ⟨max x m, by simp [listMax, hys], le_max_left x m⟩
    · obtain ⟨m, hm, hxm⟩ := ih h
      exact ⟨max y m, by simp [listMax, hm], le_trans hxm (le_max_right y m)⟩

lemma listMin_le_of_mem : ∀ {l : List ℚ} {x : ℚ}, x ∈ l →
    ∃ m, listMin l = some m ∧ m ≤ x := by
  intro l
  induction l with
  | nil => simp
  | cons y ys ih =>
    intro x hx
    rcases List.mem_cons.mp hx with h | h
    · subst h
      cases hys : listMin ys with
      | none => exact ⟨x, by simp [listMin, hys], le_refl x⟩
      | some m => exact ⟨min x m, by simp [listMin, hys], min_le_left x m⟩
    · obtain ⟨m, hm, hxm⟩ := ih h
      exact ⟨min y m, by simp [listMin, hm], le_trans (min_le_right y m) hxm⟩

lemma self_mem_windowRsi {rows : List Row} {i : ℕ} {r : ℚ} {lookback : ℕ}
    (hlb : 1 ≤ lookback) (hrs : rsiAt rows i = some r) :
    r ∈ windowRsi lookback rows i := by
  unfold windowRsi
  apply List.mem_filterMap.mpr
  refine ⟨i, ?_, hrs⟩
  apply List.mem_range'_1.mpr
  constructor
  · have h := Nat.sub_le_sub_left hlb (i + 1)
    simpa using h
  · rw [Nat.add_sub_cancel' (Nat.sub_le (i + 1) lookback)]
    exact Nat.lt_succ_self i

lemma windowRsi_isEmpty_false {rows : List Row} {i : ℕ} {r : ℚ} {lookback : ℕ}
    (hlb : 1 ≤ lookback) (hrs : rsiAt rows i = some r) :
    (windowRsi lookback rows i).isEmpty = false := by
  have hmem := self_mem_windowRsi hlb hrs
  cases hw : windowRsi lookback rows i with
  | nil => rw [hw] at hmem; simp at hmem
  | cons a l => rfl

lemma isNewHigh_eq {rows : List Row} {i : ℕ} {r : ℚ} (lookback : ℕ)
    (hrs : rsiAt rows i = some r) :
    isNewHigh lookback rows i =
      decide (listMax (windowRsi lookback rows i) = some r) := by
  simp [isNewHigh, hrs]

lemma isNewLow_eq {rows : List Row} {i : ℕ} {r : ℚ} (lookback : ℕ)
    (hrs : rsiAt rows i = some r) :
    isNewLow lookback rows i =
      decide (listMin (windowRsi lookback rows i) = some r) := by
  simp [isNewLow, hrs]

lemma trackAt_char {rows : List Row} {i : ℕ} {row : Row} {r : ℚ} {lookback : ℕ}
    (hlb : 1 ≤ lookback) (hg : rows[i]? = some row) (hr : row.rsi = some r) :
    trackAt lookback rows i =
      ⟨clampUp (if isNewHigh lookback rows i then some r
                else
                  match (prevTrack lookback rows i).max_rsi with
                  | some pm => some pm
                  | none => some r) r,
       clampUp (if isNewHigh lookback rows i then some row.close
                else
                  match (prevTrack lookback rows i).max_rsi with
                  | some _ => (prevTrack lookback rows i).max_close
                  | none => some row.close) row.close,
       clampDown (if isNewLow lookback rows i then some r
                else
                  match (prevTrack lookback rows i).min_rsi with
                  | some pm => some pm
                  | none => some r) r,
       clampDown (if isNewLow lookback rows i then some row.close
                else
                  match (prevTrack lookback rows i).min_rsi with
                  | some _ => (prevTrack lookback rows i).min_close
                  | none => some row.close) row.close⟩ := by
  have hrs : rsiAt rows i = some r := by simp [rsiAt, hg, hr]
  have hw := windowRsi_isEmpty_false hlb hrs
  rw [trackAt_eq_step]
  unfold trackStep
  rw [isNewHigh_eq lookback hrs, isNewLow_eq lookback hrs]
  by_cases hbM : listMax (windowRsi lookback rows i) = some r <;>
    by_cases hbm : listMin (windowRsi lookback rows i) = some r <;>
      simp [hg, hr, hw, hbM, hbm] <;>
        cases (prevTrack lookback rows i).max_rsi <;>
          cases (prevTrack lookback rows i).min_rsi <;> simp


lemma clampUp_some (x v : ℚ) : clampUp (some x) v = some (max x v) := by
  show (if x < v then some v else some x) = some (max x v)
  split_ifs with h
  · rw [max_eq_right h.le]
  · rw [max_eq_left (le_of_not_lt h)]

lemma clampDown_some (x v : ℚ) : clampDown (some x) v = some (min x v) := by
  show (if v < x then some v else some x) = some (min x v)
  split_ifs with h
  · rw [min_eq_right h.le]
  · rw [min_eq_left (le_of_not_lt h)]

lemma rsiAt_elim {rows : List Row} {i : ℕ} {r : ℚ} (h : rsiAt rows i = some r) :
    ∃ row, rows[i]? = some row ∧ row.rsi = some r := by
  unfold rsiAt at h
  cases hg : rows[i]? with
  | none => rw [hg] at h; simp at h
  | some row =>
    rw [hg] at h
    exact ⟨row, rfl, by simpa using h⟩

lemma max_rsi_some {rows : List Row} {i : ℕ} {row : Row} {r : ℚ} {lookback : ℕ}
    (hlb : 1 ≤ lookback) (hg : rows[i]? = some row) (hr : row.rsi = some r) :
    ∃ a, (trackAt lookback rows i).max_rsi = some a ∧ r ≤ a := by
  rw [trackAt_char hlb hg hr]
  cases hbM : isNewHigh lookback rows i
  · rcases hpm : (prevTrack lookback rows i).max_rsi with _ | pm <;>
      simp [hpm, clampUp_some]
  · simp [clampUp_some]

lemma min_rsi_some {rows : List Row} {i : ℕ} {row : Row} {r : ℚ} {lookback : ℕ}
    (hlb : 1 ≤ lookback) (hg : rows[i]? = some row) (hr : row.rsi = some r) :
    ∃ d, (trackAt lookback rows i).min_rsi = some d ∧ d ≤ r := by
  rw [trackAt_char hlb hg hr]
  cases hbm : isNewLow lookback rows i
  · rcases hpn : (prevTrack lookback rows i).min_rsi with _ | pn <;>
      simp [hpn, clampDown_some]
  · simp [clampDown_some]

lemma max_close_some {rows : List Row} {i : ℕ} {row : Row} {r : ℚ} {lookback : ℕ}
    (hlb : 1 ≤ lookback) (hg : rows[i]? = some row) (hr : row.rsi = some r)
    (hmax : (prevTrack lookback rows i).max_rsi = none ∨
      ∃ pb, (prevTrack lookback rows i).max_close = some pb) :
    ∃ b, (trackAt lookback rows i).max_close = some b ∧ row.close ≤ b := by
  rw [trackAt_char hlb hg hr]
  cases hbM : isNewHigh lookback rows i
  · rcases hpm : (prevTrack lookback rows i).max_rsi with _ | pm
    · simp [hpm, clampUp_some]
    · obtain ⟨pb, hpb⟩ := hmax.resolve_left (by simp [hpm])
      simp [hpm, hpb, clampUp_some]
  · simp [clampUp_some]

lemma min_close_some {rows : List Row} {i : ℕ} {row : Row} {r : ℚ} {lookback : ℕ}
    (hlb : 1 ≤ lookback) (hg : rows[i]? = some row) (hr : row.rsi = some r)
    (hmin : (prevTrack lookback rows i).min_rsi = none ∨
      ∃ pe, (prevTrack lookback rows i).min_close = some pe) :
    ∃ e, (trackAt lookback rows i).min_close = some e ∧ e ≤ row.close := by
  rw [trackAt_char hlb hg hr]
  cases hbm : isNewLow lookback rows i
  · rcases hpn : (prevTrack lookback rows i).min_rsi with _ | pn
    · simp [hpn, clampDown_some]
    · obtain ⟨pe, hpe⟩ := hmin.resolve_left (by simp [hpn])
      simp [hpn, hpe, clampDown_some]
  · simp [clampDown_some]

lemma trackAt_all_some {rows : List Row} {lookback : ℕ} (hlb : 1 ≤ lookback) :
    ∀ i : ℕ, ∀ {row : Row} {r : ℚ}, rows[i]? = some row → row.rsi = some r →
      (∃ a, (trackAt lookback rows i).max_rsi = some a ∧ r ≤ a) ∧
      (∃ b, (trackAt lookback rows i).max_close = some b ∧ row.close ≤ b) ∧
      (∃ d, (trackAt lookback rows i).min_rsi = some d ∧ d ≤ r) ∧
      (∃ e, (trackAt lookback rows i).min_close = some e ∧ e ≤ row.close) := by
  intro i
  induction i with
  | zero =>
    intro row r hg hr
    exact ⟨max_rsi_some hlb hg hr, max_close_some hlb hg hr (Or.inl rfl),
      min_rsi_some hlb hg hr, min_close_some hlb hg hr (Or.inl rfl)⟩
  | succ n ih =>
    intro row r hg hr
    have hmax : (prevTrack lookback rows (n + 1)).max_rsi = none ∨
        ∃ pb, (prevTrack lookback rows (n + 1)).max_close = some pb := by
      show (trackAt lookback rows n).max_rsi = none ∨
        ∃ pb, (trackAt lookback rows n).max_close = some pb
      cases hpn : rsiAt rows n with
      | none => exact Or.inl (by rw [trackAt_rsi_none lookback hpn]; rfl)
      | some rp =>
        obtain ⟨rowp, hgp, hrp⟩ := rsiAt_elim hpn
        obtain ⟨b, hb, _⟩ := (ih hgp hrp).2.1
        exact Or.inr ⟨b, hb⟩
    have hmin : (prevTrack lookback rows (n + 1)).min_rsi = none ∨
        ∃ pe, (prevTrack lookback rows (n + 1)).min_close = some pe := by
      show (trackAt lookback rows n).min_rsi = none ∨
        ∃ pe, (trackAt lookback rows n).min_close = some pe
      cases hpn : rsiAt rows n with
      | none => exact Or.inl (by rw [trackAt_rsi_none lookback hpn]; rfl)
      | some rp =>
        obtain ⟨rowp, hgp, hrp⟩ := rsiAt_elim hpn
        obtain ⟨e, he, _⟩ := (ih hgp hrp).2.2.2
        exact Or.inr ⟨e, he⟩
    exact ⟨max_rsi_some hlb hg hr, max_close_some hlb hg hr hmax,
      min_rsi_some hlb hg hr, min_close_some hlb hg hr hmin⟩

lemma rsiAt_of_min_close {rows : List Row} {j : ℕ} {x : ℚ} (lookback : ℕ)
    (h : (trackAt lookback rows j).min_close = some x) :
    ∃ rp, rsiAt rows j = some rp := by
  cases hpn : rsiAt rows j with
  | none =>
    rw [trackAt_rsi_none lookback hpn] at h
    simp [emptyTrack] at h
  | some rp => exact ⟨rp, rfl⟩

/-- C7: tie-break on rolling extrema.  If the RSI at bar i equals the
maximum of the defined values of the lookback window then isNewHigh is
true and the max track anchors to the current bar
(max_rsi[i] = rsi[i], max_close[i] = close[i]); symmetric for the
minimum. -/
theorem c7_tie_break {rows : List Row} {i : ℕ} {r c : ℚ} {lookback : ℕ}
    (hlb : 1 ≤ lookback) (hr : rsiAt rows i = some r)
    (hc : closeAt rows i = some c) :
    (listMax (windowRsi lookback rows i) = some r →
      isNewHigh lookback rows i = true ∧
      (trackAt lookback rows i).max_rsi = some r ∧
      (trackAt lookback rows i).max_close = some c) ∧
    (listMin (windowRsi lookback rows i) = some r →
      isNewLow lookback rows i = true ∧
      (trackAt lookback rows i).min_rsi = some r ∧
      (trackAt lookback rows i).min_close = some c) := by
  obtain ⟨row, hg, hrow⟩ := rsiAt_elim hr
  have hcc : row.close = c := by
    unfold closeAt at hc
    rw [hg] at hc
    simpa using hc
  subst hcc
  constructor
  · intro hM
    have hnh : isNewHigh lookback rows i = true := by
      rw [isNewHigh_eq lookback hr]
      simpa using hM
    refine ⟨hnh, ?_, ?_⟩ <;>
      rw [trackAt_char hlb hg hrow] <;>
        simp [hnh, clampUp_some, max_self]
  · intro hm
    have hnl : isNewLow lookback rows i = true := by
      rw [isNewLow_eq lookback hr]
      simpa using hm
    refine ⟨hnl, ?_, ?_⟩ <;>
      rw [trackAt_char hlb hg hrow] <;>
        simp [hnl, clampDown_some, min_self]

/-- C7 witness: at the first bar of rows0 the singleton window ties with
the current RSI, so the max track anchors there. -/
theorem c7_witness :
    isNewHigh 7 rows0 0 = true ∧ (trackAt 7 rows0 0).max_rsi = some 65 ∧
      (trackAt 7 rows0 0).max_close = some 100 :=
  (c7_tie_break (by decide) (by decide) (by decide)).1 (by decide)

/-- C8: carry-forward and clamp.  For a bar with defined RSI the max
track anchors to the current bar when isNewHigh, else carries the prior
anchor forward when one exists, else anchors to the current bar; the
carried values are clamped with max against the current close and RSI,
so max_rsi[i] >= rsi[i] and max_close[i] >= close[i] always hold after
the bar; the min track obeys the symmetric rule with min. -/
theorem c8_carry_clamp {rows : List Row} {i : ℕ} {r c : ℚ} {lookback : ℕ}
    (hlb : 1 ≤ lookback) (hr : rsiAt rows i = some r)
    (hc : closeAt rows i = some c) :
    (isNewHigh lookback rows i = true →
      (trackAt lookback rows i).max_rsi = some r ∧
      (trackAt lookback rows i).max_close = some c) ∧
    (isNewHigh lookback rows i = false →
      (∀ pm pc, (prevTrack lookback rows i).max_rsi = some pm →
        (prevTrack lookback rows i).max_close = some pc →
        (trackAt lookback rows i).max_rsi = some (max pm r) ∧
        (trackAt lookback rows i).max_close = some (max pc c)) ∧
      ((prevTrack lookback rows i).max_rsi = none →
        (trackAt lookback rows i).max_rsi = some r ∧
        (trackAt lookback rows i).max_close = some c)) ∧
    (∃ mr mc, (trackAt lookback rows i).max_rsi = some mr ∧
      (trackAt lookback rows i).max_close = some mc ∧ r ≤ mr ∧ c ≤ mc) ∧
    (isNewLow lookback rows i = true →
      (trackAt lookback rows i).min_rsi = some r ∧
      (trackAt lookback rows i).min_close = some c) ∧
    (isNewLow lookback rows i = false →
      (∀ pm pc, (prevTrack lookback rows i).min_rsi = some pm →
        (prevTrack lookback rows i).min_close = some pc →
        (trackAt lookback rows i).min_rsi = some (min pm r) ∧
        (trackAt lookback rows i).min_close = some (min pc c)) ∧
      ((prevTrack lookback rows i).min_rsi = none →
        (trackAt lookback rows i).min_rsi = some r ∧
        (trackAt lookback rows i).min_close = some c)) ∧
    (∃ mr mc, (trackAt lookback rows i).min_rsi = some mr ∧
      (trackAt lookback rows i).min_close = some mc ∧ mr ≤ r ∧ mc ≤ c) := by
  obtain ⟨row, hg, hrow⟩ := rsiAt_elim hr
  have hcc : row.close = c := by
    unfold closeAt at hc
    rw [hg] at hc
    simpa using hc
  subst hcc
  have hstruct := trackAt_all_some hlb i hg hrow
  refine ⟨?_, ?_, ?_, ?_, ?_, ?_⟩
  · intro hnh
    rw [trackAt_char hlb hg hrow]
    simp [hnh, clampUp_some, max_self]
  · intro hnh
    constructor
    · intro pm pc hpm hpc
      rw [trackAt_char hlb hg hrow]
      simp [hnh, hpm, hpc, clampUp_some]
    · intro hpm
      rw [trackAt_char hlb hg hrow]
      simp [hnh, hpm, clampUp_some, max_self]
  · obtain ⟨⟨a, ha, hra⟩, ⟨b, hb, hcb⟩, _, _⟩ := hstruct
    exact ⟨a, b, ha, hb, hra, hcb⟩
  · intro hnl
    rw [trackAt_char hlb hg hrow]
    simp [hnl, clampDown_some, min_self]
  · intro hnl
    constructor
    · intro pm pc hpm hpc
      rw [trackAt_char hlb hg hrow]
      simp [hnl, hpm, hpc, clampDown_some]
    · intro hpm
      rw [trackAt_char hlb hg hrow]
      simp [hnl, hpm, clampDown_some, min_self]
  · obtain ⟨_, _, ⟨d, hd, hdr⟩, ⟨e, he, hec⟩⟩ := hstruct
    exact ⟨d, e, hd, he, hdr, hec⟩

/-- C8 witness: at the second bar of rows0 the RSI is not a new high, so
the max track carries the anchor (65, 100) forward and clamps it with
the current close 105 and RSI 60. -/
theorem c8_witness :
    (trackAt 7 rows0 1).max_rsi = some (max 65 60) ∧
    (trackAt 7 rows0 1).max_close = some (max 100 105) :=
  ((c8_carry_clamp (by decide) (by decide) (by decide)).2.1
    (by decide)).1 65 100 (by decide) (by decide)

/-- C2: for every bar i, the bearish flag is set iff i >= 2, all
referenced values are defined, and max_close[i-1] > max_close[i-2] and
rsi[i-1] < max_rsi[i] and rsi[i] <= rsi[i-1]; the bullish flag is set
iff i >= 2, all referenced values are defined, and
min_close[i-1] < min_close[i-2] and rsi[i-1] > min_rsi[i] and
rsi[i] >= rsi[i-1].  (The extra NaN guard the source puts on the
max-side values before the bullish check is redundant: the max-side
arrays are defined at an index exactly when the min-side ones are.) -/
theorem c2_divergence_flags (lookback : ℕ) (rows : List Row)
    (hlb : 1 ≤ lookback) (i : ℕ) :
    (divbearAt lookback rows i = true ↔
      2 ≤ i ∧ ∃ r rsi1 mc1 mc2 maxr,
        rsiAt rows i = some r ∧ rsiAt rows (i - 1) = some rsi1 ∧
        (trackAt lookback rows (i - 1)).max_close = some mc1 ∧
        (trackAt lookback rows (i - 2)).max_close = some mc2 ∧
        (trackAt lookback rows i).max_rsi = some maxr ∧
        mc1 > mc2 ∧ rsi1 < maxr ∧ r ≤ rsi1) ∧
    (divbullAt lookback rows i = true ↔
      2 ≤ i ∧ ∃ r rsi1 minc1 minc2 mr1,
        rsiAt rows i = some r ∧ rsiAt rows (i - 1) = some rsi1 ∧
        (trackAt lookback rows (i - 1)).min_close = some minc1 ∧
        (trackAt lookback rows (i - 2)).min_close = some minc2 ∧
        (trackAt lookback rows i).min_rsi = some mr1 ∧
        minc1 < minc2 ∧ rsi1 > mr1 ∧ r ≥ rsi1) := by
  constructor
  · constructor
    · intro h
      unfold divbearAt at h
      rcases hg : rows[i]? with _ | row
      · rw [hg] at h; simp at h
      rcases hrr : row.rsi with _ | r
      · rw [hg] at h; simp [hrr] at h
      simp only [hg, hrr] at h
      by_cases hw : (windowRsi lookback rows i).isEmpty = true
      · rw [if_pos hw] at h; simp at h
      rw [if_neg hw] at h
      by_cases h2 : i < 2
      · rw [if_pos h2] at h; simp at h
      rw [if_neg h2] at h
      rcases hmc1 : (trackAt lookback rows (i - 1)).max_close with _ | mc1
      · rw [hmc1] at h; simp at h
      rcases hmc2 : (trackAt lookback rows (i - 2)).max_close with _ | mc2
      · rw [hmc1, hmc2] at h; simp at h
      rcases hr1 : rsiAt rows (i - 1) with _ | rsi1
      · rw [hmc1, hmc2, hr1] at h; simp at h
      rcases hmaxr : (trackAt lookback rows i).max_rsi with _ | maxr
      · rw [hmc1, hmc2, hr1, hmaxr] at h; simp at h
      rw [hmc1, hmc2, hr1, hmaxr] at h
      simp only [decide_eq_true_eq] at h
      exact ⟨Nat.not_lt.mp h2, r, rsi1, mc1, mc2, maxr,
        by simp [rsiAt, hg, hrr], rfl, rfl, rfl, rfl, h.1, h.2.1, h.2.2⟩
    · rintro ⟨h2, r, rsi1, mc1, mc2, maxr, hrs, hrs1, hmc1, hmc2, hmaxr,
        hgt, hlt, hle⟩
      obtain ⟨row, hg, hrow⟩ := rsiAt_elim hrs
      have hw := windowRsi_isEmpty_false hlb hrs
      have h2n : ¬ i < 2 := Nat.not_lt.mpr h2
      unfold divbearAt
      simp only [hg, hrow, hw, h2n, Bool.false_eq_true, if_false, hmc1, hmc2,
        hrs1, hmaxr, decide_eq_true_eq]
      exact ⟨hgt, hlt, hle⟩
  · constructor
    · intro h
      unfold divbullAt at h
      rcases hg : rows[i]? with _ | row
      · rw [hg] at h; simp at h
      rcases hrr : row.rsi with _ | r
      · rw [hg] at h; simp [hrr] at h
      simp only [hg, hrr] at h
      by_cases hw : (windowRsi lookback rows i).isEmpty = true
      · rw [if_pos hw] at h; simp at h
      rw [if_neg hw] at h
      by_cases h2 : i < 2
      · rw [if_pos h2] at h; simp at h
      rw [if_neg h2] at h
      rcases hmc1 : (trackAt lookback rows (i - 1)).max_close with _ | mc1
      · rw [hmc1] at h; simp at h
      rcases hmc2 : (trackAt lookback rows (i - 2)).max_close with _ | mc2
      · rw [hmc1, hmc2] at h; simp at h
      rcases hr1 : rsiAt rows (i - 1) with _ | rsi1
      · rw [hmc1, hmc2, hr1] at h; simp at h
      rcases hmaxr : (trackAt lookback rows i).max_rsi with _ | maxr
      · rw [hmc1, hmc2, hr1, hmaxr] at h; simp at h
      rw [hmc1, hmc2, hr1, hmaxr] at h
      rcases hminc1 : (trackAt lookback rows (i - 1)).min_close with _ | minc1
      · rw [hminc1] at h; simp at h
      rcases hminc2 : (trackAt lookback rows (i - 2)).min_close with _ | minc2
      · rw [hminc1, hminc2] at h; simp at h
      rcases hmr1 : (trackAt lookback rows i).min_rsi with _ | mr1
      · rw [hminc1, hminc2, hmr1] at h; simp at h
      rw [hminc1, hminc2, hmr1] at h
      simp only [decide_eq_true_eq] at h
      exact ⟨Nat.not_lt.mp h2, r, rsi1, minc1, minc2, mr1,
        by simp [rsiAt, hg, hrr], rfl, rfl, rfl, rfl, h.1, h.2.1, h.2.2⟩
    · rintro ⟨h2, r, rsi1, minc1, minc2, mr1, hrs, hrs1, hminc1, hminc2, hmr1,
        hlt, hgt, hge⟩
      obtain ⟨row, hg, hrow⟩ := rsiAt_elim hrs
      obtain ⟨rowp, hgp, hrowp⟩ := rsiAt_elim hrs1
      obtain ⟨rp2, hrs2⟩ := rsiAt_of_min_close lookback hminc2
      obtain ⟨rowq, hgq, hrowq⟩ := rsiAt_elim hrs2
      obtain ⟨maxr0, hmaxr0, _⟩ := (trackAt_all_some hlb i hg hrow).1
      obtain ⟨b1, hb1, _⟩ := (trackAt_all_some hlb (i - 1) hgp hrowp).2.1
      obtain ⟨b2, hb2, _⟩ := (trackAt_all_some hlb (i - 2) hgq hrowq).2.1
      have hw := windowRsi_isEmpty_false hlb hrs
      have h2n : ¬ i < 2 := Nat.not_lt.mpr h2
      unfold divbullAt
      simp only [hg, hrow, hw, h2n, Bool.false_eq_true, if_false, hb1, hb2,
        hrs1, hmaxr0, hminc1, hminc2, hmr1, decide_eq_true_eq]
      exact ⟨hlt, hgt, hge⟩

/-- C2 witness: on rows0 at bar 2 the bearish biconditional is realised
in the forward direction by explicit values. -/
theorem c2_witness : divbearAt 7 rows0 2 = true :=
  ((c2_divergence_flags 7 rows0 (by decide) 2).1).2
    ⟨by decide, 58, 60, 105, 100, 65, by decide, by decide, by decide,
      by decide, by decide, by decide, by decide, by decide⟩

lemma cycle_short (st : EngineState) (bars : List Bar)
    (h : bars.length < RSI_LENGTH + LOOKBACK + 5) :
    cycle st bars = (st, noSignals) := by
  unfold cycle
  rw [if_pos h]

lemma cycle_dup (st : EngineState) (bars : List Bar) (latest : Bar)
    (hlast : bars.getLast? = some latest)
    (hdup : st.last_bar_time = some latest.time) :
    cycle st bars = (st, noSignals) := by
  unfold cycle
  by_cases hlen : bars.length < RSI_LENGTH + LOOKBACK + 5
  · rw [if_pos hlen]
  · rw [if_neg hlen, hlast]
    simp [hdup]

lemma cycle_run (st : EngineState) (bars : List Bar) (latest : Bar)
    (hlen : ¬ bars.length < RSI_LENGTH + LOOKBACK + 5)
    (hlast : bars.getLast? = some latest)
    (hdup : ¬ st.last_bar_time = some latest.time) :
    cycle st bars =
      (⟨(TriggerTracker.update st.tracker (latestRow bars latest)).1,
        some latest.time⟩,
       (TriggerTracker.update st.tracker (latestRow bars latest)).2) := by
  unfold cycle
  rw [if_neg hlen, hlast]
  simp [hdup]

lemma exists_getLast_of_long {bars : List Bar}
    (hlen : ¬ bars.length < RSI_LENGTH + LOOKBACK + 5) :
    ∃ latest, bars.getLast? = some latest := by
  cases hb : bars.getLast? with
  | some latest => exact ⟨latest, rfl⟩
  | none =>
    have : bars = [] := List.getLast?_eq_none_iff.mp hb
    subst this
    simp at hlen

/-- C10: minimum-history guard.  Any window shorter than
RSI_LENGTH + LOOKBACK + 5 bars is skipped: no signals, no mutation of
the trigger state or of the last-processed marker (the cycle function is
total, so no error is raised either). -/
theorem c10_min_history (st : EngineState) (bars : List Bar)
    (hlen : bars.length < RSI_LENGTH + LOOKBACK + 5) :
    cycle st bars = (st, noSignals) :=
  cycle_short st bars hlen

/-- C10 witness: a window of exactly RSI_LENGTH + LOOKBACK + 5 - 1 = 25
bars yields no signals and leaves the state untouched. -/
theorem c10_witness :
    cycle ⟨⟨none, none⟩, none⟩ (List.replicate 25 ⟨0, 1, 2, 1, 1, 0⟩) =
      (⟨⟨none, none⟩, none⟩, noSignals) :=
  c10_min_history ⟨⟨none, none⟩, none⟩ (List.replicate 25 ⟨0, 1, 2, 1, 1, 0⟩)
    (by decide)

/-- C9: duplicate-delivery idempotence.  When the newest bar of the
window carries the timestamp already recorded in last_bar_time the cycle
is a no-op (no signals, no state mutation); consequently presenting the
same trailing window twice is observably identical to presenting it
once — the second pass emits no signals and leaves the state of the
first pass unchanged. -/
theorem c9_idempotence :
    (∀ (st : EngineState) (bars : List Bar) (latest : Bar),
      bars.getLast? = some latest → st.last_bar_time = some latest.time →
      cycle st bars = (st, noSignals)) ∧
    (∀ (st : EngineState) (bars : List Bar),
      cycle (cycle st bars).1 bars = ((cycle st bars).1, noSignals)) := by
  constructor
  · exact fun st bars latest hlast hdup => cycle_dup st bars latest hlast hdup
  · intro st bars
    by_cases hlen : bars.length < RSI_LENGTH + LOOKBACK + 5
    · rw [cycle_short st bars hlen]
      exact cycle_short st bars hlen
    · obtain ⟨latest, hlast⟩ := exists_getLast_of_long hlen
      by_cases hdup : st.last_bar_time = some latest.time
      · rw [cycle_dup st bars latest hlast hdup]
        exact cycle_dup st bars latest hlast hdup
      · rw [cycle_run st bars latest hlen hlast hdup]
        exact cycle_dup _ bars latest hlast rfl

/-- C9 witness: a 26-bar window whose newest timestamp equals the
recorded last_bar_time is skipped outright. -/
theorem c9_witness :
    cycle ⟨⟨none, none⟩, some 0⟩ (List.replicate 26 ⟨0, 1, 2, 1, 1, 0⟩) =
      (⟨⟨none, none⟩, some 0⟩, noSignals) :=
  c9_idempotence.1 ⟨⟨none, none⟩, some 0⟩ (List.replicate 26 ⟨0, 1, 2, 1, 1, 0⟩)
    ⟨0, 1, 2, 1, 1, 0⟩ (by decide) rfl

/-- C3 counterexample: the 15th RSI value of the literal close sequence
is exactly 9200/127 = 72.44..., which is more than 1 above 70.53; the
~70.53 reference value belongs to a different (shifted) close series, so
the claim as stated is false on this input. -/
theorem c3_counterexample :
    (wilderRsi 14 c3closes)[14]? = some (some (9200 / 127)) ∧
    (70.53 : ℚ) + 1 < 9200 / 127 := by
  constructor
  · have h : wilderRsi 14 c3closes =
        List.replicate 14 none ++ [some (9200 / 127)] := by
      norm_num [wilderRsi, c3closes, rsiFromAvgs, List.scanl]
    rw [h]
    rfl
  · norm_num

/-- C3 (amended): the RSI computation on the literal 15-close sequence
with length 14 returns a same-length sequence whose entries at indices
0..13 are undefined and whose 15th value (index 14) is 9200/127 = 72.44,
the Wilder RSI(14) of this exact sequence (seed by the simple mean of the
first 14 gains/losses, then smooth with factor 1/14). -/
theorem c3_amended :
    wilderRsi 14 c3closes = List.replicate 14 none ++ [some (9200 / 127)] := by
  norm_num [wilderRsi, c3closes, rsiFromAvgs, List.scanl]
